import Mathlib

/-!
Cypress TTSP I2C transport adapter, `drivers/input/touchscreen/cyttsp_i2c.c`.

A shallow embedding of the two block-transfer operations of the adapter,
`ttsp_i2c_read_block_data` and `ttsp_i2c_write_block_data`, and of its
extension hook `ttsp_i2c_tch_ext`, together with the properties of their
framing, transaction sequence and status handling.

Conventions of the embedding.

* Machine integers are natural numbers or integers; a conversion to `u8` is an
  explicit `% 256`. The `u16` sub-address and the `u8` length are natural
  numbers, bounded by hypotheses where a statement needs the bound.
* Memory reached through a pointer (`values`, `wr_buf`, the local `sub_addr`)
  is a function from the byte offset to the byte stored there. The staging
  buffer `wr_buf` owns offsets `0 .. CY_I2C_DATA_SIZE - 1`; a store at a larger
  offset lands outside the array.
* Stores into `wr_buf` are first collected as a list of `(offset, byte)` pairs
  in program order, and then applied to the memory, so that the offsets written
  can be inspected.
* The bus transport (`i2c_master_send`, `i2c_master_recv`) is external: the
  statuses it returns and the bytes it delivers are supplied by a `BusReply`;
  each call made is recorded as a `Txn` in a trace.
* The loader addresses `CY_LDR1_I2C_ADDR` and `CY_LDR3_I2C_ADDR` come from
  `cyttsp_core.h`, which is not among the sources; they are parameters of the
  two operations, and every statement holds for all values of them. The errno
  constant `EIO` of the kernel headers is a parameter of the extension hook.
* Pointers that are only tested against null (the arguments of the extension
  hook) are addresses, with 0 for the null pointer.
-/

namespace CyttspI2c

/-! ## Data model -/

/-- Size of the staging buffer: `#define CY_I2C_DATA_SIZE  128`. -/
def CY_I2C_DATA_SIZE : Nat := 128

/-- Byte memory seen through a pointer: byte offset to stored byte. -/
abbrev Mem := Nat → Nat

/-- Conversion of an integer value to `u8`. -/
def u8 (n : Nat) : Nat := n % 256

/-- Modelled from the spec: `struct i2c_client` is declared in `linux/i2c.h`,
which is not among the sources. Only the part the adapter touches is kept, the
addressing field of the bus handle that `ts->client->addr = i2c_addr` assigns;
it holds the device address, an integer. -/
structure i2c_client where
  addr : Int

/-- The adapter instance `struct cyttsp_i2c`: the bus handle and the staging
buffer `u8 wr_buf[CY_I2C_DATA_SIZE]`. -/
structure cyttsp_i2c where
  client : i2c_client
  wr_buf : Mem

/-- One bus transaction: a send of `count` bytes (`data`) to `addr`, or a
receive of `count` bytes from `addr`. -/
inductive Txn where
  | send (addr : Int) (data : List Nat) (count : Nat)
  | recv (addr : Int) (count : Nat)
  deriving DecidableEq

/-- Modelled from the spec: the answers of the bus transport, which is not
among the sources. Each primitive returns a signed status (negative is an
error, non-negative is bytes transferred or success). A `BusReply` fixes what
the transport answers during one call of an operation: the status of a send,
the status of a receive, and the bytes a receive delivers. -/
structure BusReply where
  send_status : Int
  recv_status : Int
  recv_data : List Nat

/-- A single byte store into a buffer: `(offset, byte)`. -/
abbrev Store := Nat × Nat

/-! ## Memory primitives -/

/-- The first `n` bytes found at a pointer. -/
def readBytes (m : Mem) (n : Nat) : List Nat :=
  (List.range n).map m

/-- A local array seen as memory. -/
def memOfList (l : List Nat) : Mem :=
  fun i => l.getD i 0

/-- The stores of `memcpy(&buf[off], src, n)`: byte `i` of `src` goes to
offset `off + i`, for `i < n`. -/
def memcpy (off : Nat) (src : Mem) (n : Nat) : List Store :=
  (List.range n).map fun i => (off + i, src i)

/-- Effect of one store on a memory. -/
def storeByte (m : Mem) (s : Store) : Mem :=
  fun i => if i = s.1 then s.2 else m i

/-- Effect of a sequence of stores, applied in order. -/
def applyStores (m : Mem) (ss : List Store) : Mem :=
  ss.foldl storeByte m

/-- Memory after the transport has deposited `data` at its start. -/
def deposit (m : Mem) (data : List Nat) : Mem :=
  fun i => data.getD i (m i)

/-! ## Transport primitives -/

/-- Modelled from the spec: the transport primitive
`i2c_master_send(client, buf, count)`, not among the sources, "send N bytes to
address A": it sends the first `count` bytes of `buf` to the address held by
the bus handle; the status is supplied by the environment. Returns the status
and the transaction issued. -/
def i2c_master_send (bus : BusReply) (client : i2c_client) (buf : Mem)
    (count : Nat) : Int × List Txn :=
  (bus.send_status, [Txn.send client.addr (readBytes buf count) count])

/-- Modelled from the spec: the transport primitive
`i2c_master_recv(client, buf, count)`, not among the sources, "receive N bytes
from address A": it asks for `count` bytes from the address held by the bus
handle; at most `count` of the bytes delivered are deposited in `buf`. Returns
the status, the buffer and the transaction issued. -/
def i2c_master_recv (bus : BusReply) (client : i2c_client) (buf : Mem)
    (count : Nat) : Int × Mem × List Txn :=
  (bus.recv_status, deposit buf (bus.recv_data.take count),
    [Txn.recv client.addr count])

/-! ## Read block -/

/-- Outcome of `ttsp_i2c_read_block_data`: the value returned, the adapter
afterwards, the destination buffer afterwards, and the bus transactions. -/
structure ReadResult where
  retval : Int
  ts : cyttsp_i2c
  values : Mem
  trace : List Txn

/-- The local `u8 sub_addr[2]` and `subaddr_len` after lines 54-61 of the
source. -/
def read_sub_addr (subaddr : Nat) (use_long_subaddr : Bool) : List Nat × Nat :=
  if use_long_subaddr then
    ([u8 (subaddr >>> 8), u8 subaddr], 2)
  else
    ([u8 subaddr], 1)

/-- The code from label `read_packet` on: the receive and the final
`return (retval < 0) ? retval : 0`. -/
def read_packet (bus : BusReply) (ts : cyttsp_i2c) (length : Nat) (values : Mem)
    (sent : List Txn) : ReadResult :=
  let r := i2c_master_recv bus ts.client values length
  ReadResult.mk (if r.1 < 0 then r.1 else 0) ts r.2.1 (sent ++ r.2.2)

/-- The operation `ttsp_i2c_read_block_data(handle, subaddr, length, values,
i2c_addr, use_long_subaddr)`. -/
def ttsp_i2c_read_block_data (CY_LDR1_I2C_ADDR CY_LDR3_I2C_ADDR : Int)
    (bus : BusReply) (ts : cyttsp_i2c) (subaddr length : Nat) (values : Mem)
    (i2c_addr : Int) (use_long_subaddr : Bool) : ReadResult :=
  let sa := read_sub_addr subaddr use_long_subaddr
  let ts1 := cyttsp_i2c.mk (i2c_client.mk i2c_addr) ts.wr_buf
  if i2c_addr = CY_LDR1_I2C_ADDR ∨ i2c_addr = CY_LDR3_I2C_ADDR then
    read_packet bus ts1 length values []
  else
    let s := i2c_master_send bus ts1.client (memOfList sa.1) sa.2
    if s.1 < 0 then
      ReadResult.mk s.1 ts1 values s.2
    else
      read_packet bus ts1 length values s.2

/-! ## Write block -/

/-- Outcome of `ttsp_i2c_write_block_data`: the value returned, the adapter
afterwards, the stores made into `wr_buf` in program order, and the bus
transactions. -/
structure WriteResult where
  retval : Int
  ts : cyttsp_i2c
  stores : List Store
  trace : List Txn

/-- Lines 93-104 of the source: the stores into `wr_buf` and the value of the
`u8` variable `length` afterwards. -/
def write_frame (CY_LDR1_I2C_ADDR CY_LDR3_I2C_ADDR : Int) (subaddr length : Nat)
    (values : Mem) (i2c_addr : Int) (use_long_subaddr : Bool) :
    List Store × Nat :=
  if use_long_subaddr then
    ((0, u8 (subaddr >>> 8)) :: (1, u8 subaddr) :: memcpy 2 values length,
      u8 (length + 2))
  else if i2c_addr = CY_LDR1_I2C_ADDR ∨ i2c_addr = CY_LDR3_I2C_ADDR then
    (memcpy 0 values length, length)
  else
    ((0, u8 subaddr) :: memcpy 1 values length, u8 (length + 1))

/-- The operation `ttsp_i2c_write_block_data(handle, subaddr, length, values,
i2c_addr, use_long_subaddr)`. -/
def ttsp_i2c_write_block_data (CY_LDR1_I2C_ADDR CY_LDR3_I2C_ADDR : Int)
    (bus : BusReply) (ts : cyttsp_i2c) (subaddr length : Nat) (values : Mem)
    (i2c_addr : Int) (use_long_subaddr : Bool) : WriteResult :=
  let f := write_frame CY_LDR1_I2C_ADDR CY_LDR3_I2C_ADDR subaddr length values
    i2c_addr use_long_subaddr
  let ts1 := cyttsp_i2c.mk (i2c_client.mk i2c_addr) (applyStores ts.wr_buf f.1)
  let s := i2c_master_send bus ts1.client ts1.wr_buf f.2
  WriteResult.mk (if s.1 < 0 then s.1 else 0) ts1 f.1 s.2

/-! ## Extension hook -/

/-- Outcome of `ttsp_i2c_tch_ext`: the value returned, the adapter afterwards
and the bus transactions. -/
structure ExtResult where
  retval : Int
  ts : cyttsp_i2c
  trace : List Txn

/-- The pointer `container_of(handle, struct cyttsp_i2c, ops)`: the handle
moved back by the offset of the member `ops`, which is the first member of
`struct cyttsp_i2c` and so has offset 0. Pointers are addresses, the null
pointer is 0. -/
def container_of (handle : Nat) : Nat :=
  handle - 0

/-- The operation `ttsp_i2c_tch_ext(handle, values)`. Both arguments are
pointers; `EIO` is the errno constant of the kernel headers, a parameter;
`mem` is the adapter as it stands when the hook is called. -/
def ttsp_i2c_tch_ext ( EIO : Int) (mem : cyttsp_i2c) (handle values : Nat) :
    ExtResult :=
  let ts := container_of handle
  let retval : Int := 0
  let retval := if ts = 0 ∨ values = 0 then - EIO else retval
  ExtResult.mk retval mem []

/-! ## Predicates used in the statements -/

/-- Status the transport gave to a transaction of the trace. -/
def txn_status (bus : BusReply) : Txn → Int
  | Txn.send _ _ _ => bus.send_status
  | Txn.recv _ _ => bus.recv_status

/-- Every store of the list lands inside `wr_buf`: its offset is below
`CY_I2C_DATA_SIZE`. -/
def stores_in_bounds (ss : List Store) : Prop :=
  ∀ s ∈ ss, s.1 < CY_I2C_DATA_SIZE

/-- Byte counts of the sends of a trace, in order. -/
def sent_counts : List Txn → List Nat
  | [] => []
  | Txn.send _ _ count :: rest => count :: sent_counts rest
  | Txn.recv _ _ :: rest => sent_counts rest

/-- Number of sub-address bytes a read-block call puts on the bus: the bytes
of the sends of its trace. -/
def read_subaddr_bytes (r : ReadResult) : Nat :=
  (sent_counts r.trace).sum

/-- Number of header bytes a write-block call of payload length `length` puts
before the payload: the stores it makes beyond the `length` stores of the
payload copy. -/
def write_header_bytes (r : WriteResult) (length : Nat) : Nat :=
  r.stores.length - length

/-! ## Auxiliary facts about the memory primitives -/

theorem memcpy_succ (off : Nat) (src : Mem) (n : Nat) :
    memcpy off src (n + 1) = memcpy off src n ++ [(off + n, src n)] := by
  simp [memcpy, List.range_succ]

theorem applyStores_cons (m : Mem) (s : Store) (ss : List Store) :
    applyStores m (s :: ss) = applyStores (storeByte m s) ss := rfl

theorem applyStores_append (m : Mem) (ss tt : List Store) :
    applyStores m (ss ++ tt) = applyStores (applyStores m ss) tt := by
  simp [applyStores, List.foldl_append]

/-- Memory after a `memcpy`: the copied range holds the source bytes, every
other offset keeps its byte. -/
theorem applyStores_memcpy (m : Mem) (off : Nat) (src : Mem) (n i : Nat) :
    applyStores m (memcpy off src n) i
      = if off ≤ i ∧ i < off + n then src (i - off) else m i := by
  induction n with
  | zero =>
    have h0 : ¬ (off ≤ i ∧ i < off + 0) := by omega
    simp only [h0, if_false]
    rfl
  | succ k ih =>
    rw [memcpy_succ, applyStores_append]
    show storeByte (applyStores m (memcpy off src k)) (off + k, src k) i = _
    unfold storeByte
    by_cases h : i = off + k
    · subst h
      simp
    · simp only [h, if_false, ih]
      by_cases h2 : off ≤ i ∧ i < off + k
      · have h3 : off ≤ i ∧ i < off + (k + 1) := by omega
        simp [h2, h3]
      · have h3 : ¬ (off ≤ i ∧ i < off + (k + 1)) := by omega
        simp [h2, h3]

theorem readBytes_succ (m : Mem) (n : Nat) :
    readBytes m (n + 1) = m 0 :: readBytes (fun i => m (i + 1)) n := by
  simp [readBytes, List.range_succ_eq_map, List.map_map, Function.comp_def]

theorem readBytes_congr (m m2 : Mem) (n : Nat) (h : ∀ i, i < n → m i = m2 i) :
    readBytes m n = readBytes m2 n := by
  unfold readBytes
  apply List.map_congr_left
  intro i hi
  exact h i (List.mem_range.mp hi)

theorem memcpy_offsets (off : Nat) (src : Mem) (n : Nat) (s : Store) :
    s ∈ memcpy off src n ↔ ∃ i, i < n ∧ s = (off + i, src i) := by
  simp only [memcpy, List.mem_map, List.mem_range]
  constructor
  · rintro ⟨i, hi, rfl⟩
    exact ⟨i, hi, rfl⟩
  · rintro ⟨i, hi, rfl⟩
    exact ⟨i, hi, rfl⟩

theorem u8_of_lt (n : Nat) (h : n < 256) : u8 n = n := Nat.mod_eq_of_lt h

theorem u8_hi (s : Nat) (h : s < 65536) : u8 (s >>> 8) = s >>> 8 := by
  apply u8_of_lt
  rw [Nat.shiftRight_eq_div_pow]
  omega

theorem u8_lo (s : Nat) : u8 s = s &&& 0xFF := by
  have := Nat.and_pow_two_sub_one_eq_mod s 8
  simpa [u8] using this.symm

/-- Staging buffer after a payload-only frame. -/
theorem frame_bytes_bare (m : Mem) (values : Mem) (n : Nat) :
    readBytes (applyStores m (memcpy 0 values n)) n = readBytes values n := by
  apply readBytes_congr
  intro i hi
  rw [applyStores_memcpy]
  have h : 0 ≤ i ∧ i < 0 + n := by omega
  rw [if_pos h]
  rfl

/-- Staging buffer after a frame with one leading byte. -/
theorem frame_bytes_short (m : Mem) (a : Nat) (values : Mem) (n : Nat) :
    readBytes (applyStores m ((0, a) :: memcpy 1 values n)) (n + 1)
      = a :: readBytes values n := by
  rw [readBytes_succ, applyStores_cons, applyStores_memcpy]
  simp only [storeByte]
  have h0 : ¬ (1 ≤ 0 ∧ 0 < 1 + n) := by omega
  simp only [h0, if_false, if_true]
  congr 1
  apply readBytes_congr
  intro i hi
  rw [applyStores_memcpy]
  have h : 1 ≤ i + 1 ∧ i + 1 < 1 + n := by omega
  simp [h]

/-- Staging buffer after a frame with two leading bytes. -/
theorem frame_bytes_long (m : Mem) (a b : Nat) (values : Mem) (n : Nat) :
    readBytes (applyStores m ((0, a) :: (1, b) :: memcpy 2 values n)) (n + 2)
      = a :: b :: readBytes values n := by
  rw [readBytes_succ, readBytes_succ, applyStores_cons, applyStores_cons,
    applyStores_memcpy, applyStores_memcpy]
  simp only [storeByte]
  have h0 : ¬ (2 ≤ 0 ∧ 0 < 2 + n) := by omega
  have h1 : ¬ (2 ≤ 0 + 1 ∧ 0 + 1 < 2 + n) := by omega
  simp only [h0, h1, if_false]
  simp only [Nat.zero_add, if_true]
  congr 2
  apply readBytes_congr
  intro i hi
  rw [applyStores_memcpy]
  have h : 2 ≤ i + 1 + 1 ∧ i + 1 + 1 < 2 + n := by omega
  simp [h]

/-! ## Write block: framing -/

/-- C1. Write-block framing: for a payload length in 1..125 and a 16-bit
sub-address, the first `length + p` bytes of the staging buffer are the
header followed by the payload bytes in order, where the header is the two
bytes `subaddr >> 8`, `subaddr & 0xFF` when the long flag is set, empty
when the flag is clear and the device address is a loader address, and the
single byte `subaddr & 0xFF` otherwise; the one bus send carries these bytes
and its length is `length + p`. -/
theorem write_block_framing (CY_LDR1_I2C_ADDR CY_LDR3_I2C_ADDR : Int)
    (bus : BusReply) (ts : cyttsp_i2c) (subaddr length : Nat) (values : Mem)
    (i2c_addr : Int) (use_long_subaddr : Bool)
    (hlo : 1 ≤ length) (hhi : length ≤ 125) (hsub : subaddr < 65536) :
    readBytes (ttsp_i2c_write_block_data CY_LDR1_I2C_ADDR CY_LDR3_I2C_ADDR bus ts
        subaddr length values i2c_addr use_long_subaddr).ts.wr_buf
        (length +
          (if use_long_subaddr then 2
           else if i2c_addr = CY_LDR1_I2C_ADDR ∨ i2c_addr = CY_LDR3_I2C_ADDR then 0
           else 1))
      = (if use_long_subaddr then [subaddr >>> 8, subaddr &&& 0xFF]
         else if i2c_addr = CY_LDR1_I2C_ADDR ∨ i2c_addr = CY_LDR3_I2C_ADDR then []
         else [subaddr &&& 0xFF]) ++ readBytes values length
    ∧ (ttsp_i2c_write_block_data CY_LDR1_I2C_ADDR CY_LDR3_I2C_ADDR bus ts
        subaddr length values i2c_addr use_long_subaddr).trace
      = [Txn.send i2c_addr
          ((if use_long_subaddr then [subaddr >>> 8, subaddr &&& 0xFF]
            else if i2c_addr = CY_LDR1_I2C_ADDR ∨ i2c_addr = CY_LDR3_I2C_ADDR then []
            else [subaddr &&& 0xFF]) ++ readBytes values length)
          (length +
            (if use_long_subaddr then 2
             else if i2c_addr = CY_LDR1_I2C_ADDR ∨ i2c_addr = CY_LDR3_I2C_ADDR then 0
             else 1))] := by
  have h2 : u8 (length + 2) = length + 2 := u8_of_lt _ (by omega)
  have h1 : u8 (length + 1) = length + 1 := u8_of_lt _ (by omega)
  have hh := u8_hi subaddr hsub
  have hl := u8_lo subaddr
  cases use_long_subaddr with
  | true =>
    simp only [ttsp_i2c_write_block_data, write_frame, i2c_master_send, if_true,
      h2, hh, hl, frame_bytes_long]
    simp
  | false =>
    by_cases hldr : i2c_addr = CY_LDR1_I2C_ADDR ∨ i2c_addr = CY_LDR3_I2C_ADDR
    · simp only [ttsp_i2c_write_block_data, write_frame, i2c_master_send, hldr,
        if_true, if_false, Bool.false_eq_true, Nat.add_zero, frame_bytes_bare]
      simp
    · simp only [ttsp_i2c_write_block_data, write_frame, i2c_master_send, hldr,
        if_false, Bool.false_eq_true, h1, hl, frame_bytes_short]
      simp

/-- Witness for C1: device 0x24 (not a loader address), sub-address 0x10,
four payload bytes, flag clear: the buffer starts with `0x10, d0, d1, d2, d3`
and the transmit length is 5. -/
theorem write_block_framing_witness :
    readBytes (ttsp_i2c_write_block_data 0x69 0x6A (BusReply.mk 5 0 [])
        (cyttsp_i2c.mk (i2c_client.mk 0) (fun _ => 0)) 0x10 4
        (memOfList [0xA1, 0xB2, 0xC3, 0xD4]) 0x24 false).ts.wr_buf 5
      = [0x10, 0xA1, 0xB2, 0xC3, 0xD4]
    ∧ (ttsp_i2c_write_block_data 0x69 0x6A (BusReply.mk 5 0 [])
        (cyttsp_i2c.mk (i2c_client.mk 0) (fun _ => 0)) 0x10 4
        (memOfList [0xA1, 0xB2, 0xC3, 0xD4]) 0x24 false).trace
      = [Txn.send 0x24 [0x10, 0xA1, 0xB2, 0xC3, 0xD4] 5] :=
  write_block_framing 0x69 0x6A (BusReply.mk 5 0 [])
    (cyttsp_i2c.mk (i2c_client.mk 0) (fun _ => 0)) 0x10 4
    (memOfList [0xA1, 0xB2, 0xC3, 0xD4]) 0x24 false
    (by decide) (by decide) (by decide)

/-- C2. Width-flag precedence in write-block: with the long flag set, for
every device address (the loader addresses included), every 16-bit
sub-address and every length in 1..125, the frame sent is the high byte of
the sub-address, then its low byte, then the payload, and the transmit length
is `length + 2`. -/
theorem write_block_long_flag_precedence (CY_LDR1_I2C_ADDR CY_LDR3_I2C_ADDR : Int)
    (bus : BusReply) (ts : cyttsp_i2c) (subaddr length : Nat) (values : Mem)
    (i2c_addr : Int)
    (hlo : 1 ≤ length) (hhi : length ≤ 125) (hsub : subaddr < 65536) :
    (ttsp_i2c_write_block_data CY_LDR1_I2C_ADDR CY_LDR3_I2C_ADDR bus ts
        subaddr length values i2c_addr true).trace
      = [Txn.send i2c_addr
          (subaddr >>> 8 :: (subaddr &&& 0xFF) :: readBytes values length)
          (length + 2)] := by
  have h2 : u8 (length + 2) = length + 2 := u8_of_lt _ (by omega)
  simp only [ttsp_i2c_write_block_data, write_frame, i2c_master_send, if_true,
    h2, u8_hi subaddr hsub, u8_lo subaddr, frame_bytes_long]

/-- Witness for C2: the loader address `CY_LDR1_I2C_ADDR` itself, flag set. -/
theorem write_block_long_flag_precedence_witness :
    (ttsp_i2c_write_block_data 0x69 0x6A (BusReply.mk 6 0 [])
        (cyttsp_i2c.mk (i2c_client.mk 0) (fun _ => 0)) 0x1234 4
        (memOfList [0xA1, 0xB2, 0xC3, 0xD4]) 0x69 true).trace
      = [Txn.send 0x69 [0x12, 0x34, 0xA1, 0xB2, 0xC3, 0xD4] 6] :=
  write_block_long_flag_precedence 0x69 0x6A (BusReply.mk 6 0 [])
    (cyttsp_i2c.mk (i2c_client.mk 0) (fun _ => 0)) 0x1234 4
    (memOfList [0xA1, 0xB2, 0xC3, 0xD4]) 0x69
    (by decide) (by decide) (by decide)

/-- C3. Loader-address write: for a device address equal to one of the two
loader addresses, with the long flag clear, for every sub-address and every
length in 1..125, the bytes sent are exactly the payload bytes, the transmit
length is `length`, and neither the transaction nor the stores into the
staging buffer depend on the sub-address. -/
theorem write_block_loader_bare (CY_LDR1_I2C_ADDR CY_LDR3_I2C_ADDR : Int)
    (bus : BusReply) (ts : cyttsp_i2c) (subaddr length : Nat) (values : Mem)
    (i2c_addr : Int)
    (hldr : i2c_addr = CY_LDR1_I2C_ADDR ∨ i2c_addr = CY_LDR3_I2C_ADDR)
    (_hlo : 1 ≤ length) (_hhi : length ≤ 125) :
    (ttsp_i2c_write_block_data CY_LDR1_I2C_ADDR CY_LDR3_I2C_ADDR bus ts
        subaddr length values i2c_addr false).trace
      = [Txn.send i2c_addr (readBytes values length) length]
    ∧ ∀ subaddr2 : Nat,
        (ttsp_i2c_write_block_data CY_LDR1_I2C_ADDR CY_LDR3_I2C_ADDR bus ts
          subaddr2 length values i2c_addr false).trace
          = (ttsp_i2c_write_block_data CY_LDR1_I2C_ADDR CY_LDR3_I2C_ADDR bus ts
              subaddr length values i2c_addr false).trace
        ∧ (ttsp_i2c_write_block_data CY_LDR1_I2C_ADDR CY_LDR3_I2C_ADDR bus ts
          subaddr2 length values i2c_addr false).stores
          = (ttsp_i2c_write_block_data CY_LDR1_I2C_ADDR CY_LDR3_I2C_ADDR bus ts
              subaddr length values i2c_addr false).stores := by
  constructor
  · simp only [ttsp_i2c_write_block_data, write_frame, i2c_master_send, hldr,
      if_true, if_false, Bool.false_eq_true, frame_bytes_bare]
  · intro subaddr2
    simp only [ttsp_i2c_write_block_data, write_frame, i2c_master_send, hldr,
      if_true, if_false, Bool.false_eq_true, and_self]

/-- Witness for C3: device `CY_LDR1_I2C_ADDR`, four payload bytes, flag
clear: the frame is `d0, d1, d2, d3` and the transmit length is 4. -/
theorem write_block_loader_bare_witness :
    (ttsp_i2c_write_block_data 0x69 0x6A (BusReply.mk 4 0 [])
        (cyttsp_i2c.mk (i2c_client.mk 0) (fun _ => 0)) 0x10 4
        (memOfList [0xA1, 0xB2, 0xC3, 0xD4]) 0x69 false).trace
      = [Txn.send 0x69 [0xA1, 0xB2, 0xC3, 0xD4] 4] :=
  (write_block_loader_bare 0x69 0x6A (BusReply.mk 4 0 [])
    (cyttsp_i2c.mk (i2c_client.mk 0) (fun _ => 0)) 0x10 4
    (memOfList [0xA1, 0xB2, 0xC3, 0xD4]) 0x69
    (by decide) (by decide) (by decide)).1

/-! ## Read block -/

theorem readBytes_sub_addr_long (a b : Nat) :
    readBytes (memOfList [a, b]) 2 = [a, b] := rfl

theorem readBytes_sub_addr_short (a : Nat) :
    readBytes (memOfList [a]) 1 = [a] := rfl

theorem u8_hi_div (s : Nat) (h : s < 65536) : u8 (s >>> 8) = s / 256 := by
  rw [u8_hi s h, Nat.shiftRight_eq_div_pow]

/-- C4. Read-block transaction sequence: for a device address that is not a
loader address, when the address write succeeds, the trace is a send of the
encoded sub-address (one byte, or two bytes high byte first under the long
flag) to the device address followed by a receive of `length` bytes from the
same address; for a loader address the trace is the receive alone, whatever
the flag. -/
theorem read_block_transactions (CY_LDR1_I2C_ADDR CY_LDR3_I2C_ADDR : Int)
    (bus : BusReply) (ts : cyttsp_i2c) (subaddr length : Nat) (values : Mem)
    (i2c_addr : Int) (use_long_subaddr : Bool) (hsub : subaddr < 65536) :
    (¬ (i2c_addr = CY_LDR1_I2C_ADDR ∨ i2c_addr = CY_LDR3_I2C_ADDR) →
      0 ≤ bus.send_status →
      (ttsp_i2c_read_block_data CY_LDR1_I2C_ADDR CY_LDR3_I2C_ADDR bus ts
          subaddr length values i2c_addr use_long_subaddr).trace
        = [Txn.send i2c_addr
            (if use_long_subaddr then [subaddr / 256, subaddr % 256]
             else [subaddr % 256])
            (if use_long_subaddr then 2 else 1),
           Txn.recv i2c_addr length])
    ∧ ((i2c_addr = CY_LDR1_I2C_ADDR ∨ i2c_addr = CY_LDR3_I2C_ADDR) →
      (ttsp_i2c_read_block_data CY_LDR1_I2C_ADDR CY_LDR3_I2C_ADDR bus ts
          subaddr length values i2c_addr use_long_subaddr).trace
        = [Txn.recv i2c_addr length]) := by
  constructor
  · intro hn hs
    have hs2 : ¬ bus.send_status < 0 := by omega
    have hh : subaddr >>> 8 % 256 = subaddr / 256 := u8_hi_div subaddr hsub
    cases use_long_subaddr with
    | true =>
      simp only [ttsp_i2c_read_block_data, read_sub_addr, read_packet,
        i2c_master_send, i2c_master_recv, hn, hs2, if_true, if_false,
        readBytes_sub_addr_long, u8, hh]
      rfl
    | false =>
      simp only [ttsp_i2c_read_block_data, read_sub_addr, read_packet,
        i2c_master_send, i2c_master_recv, hn, hs2, if_false,
        Bool.false_eq_true, readBytes_sub_addr_short, u8]
      rfl
  · intro hl
    simp only [ttsp_i2c_read_block_data, read_packet, i2c_master_recv, hl,
      if_true]
    rfl

/-- Witness for C4: device 0x24, sub-address 0x1234, length 8, long flag set:
`0x12, 0x34` is sent to 0x24, then 8 bytes are received from 0x24; and for
the loader address 0x69 the receive is the only transaction. -/
theorem read_block_transactions_witness :
    (ttsp_i2c_read_block_data 0x69 0x6A (BusReply.mk 2 8 [])
        (cyttsp_i2c.mk (i2c_client.mk 0) (fun _ => 0)) 0x1234 8
        (fun _ => 0) 0x24 true).trace
      = [Txn.send 0x24 [0x12, 0x34] 2, Txn.recv 0x24 8]
    ∧ (ttsp_i2c_read_block_data 0x69 0x6A (BusReply.mk 2 8 [])
        (cyttsp_i2c.mk (i2c_client.mk 0) (fun _ => 0)) 0x1234 8
        (fun _ => 0) 0x69 true).trace
      = [Txn.recv 0x69 8] :=
  ⟨(read_block_transactions 0x69 0x6A (BusReply.mk 2 8 [])
      (cyttsp_i2c.mk (i2c_client.mk 0) (fun _ => 0)) 0x1234 8
      (fun _ => 0) 0x24 true (by decide)).1 (by decide) (by decide),
   (read_block_transactions 0x69 0x6A (BusReply.mk 2 8 [])
      (cyttsp_i2c.mk (i2c_client.mk 0) (fun _ => 0)) 0x1234 8
      (fun _ => 0) 0x69 true (by decide)).2 (by decide)⟩

/-- Read-block at a loader address: the receive alone. -/
theorem read_block_loader (CY_LDR1_I2C_ADDR CY_LDR3_I2C_ADDR : Int)
    (bus : BusReply) (ts : cyttsp_i2c) (subaddr length : Nat) (values : Mem)
    (i2c_addr : Int) (use_long_subaddr : Bool)
    (hl : i2c_addr = CY_LDR1_I2C_ADDR ∨ i2c_addr = CY_LDR3_I2C_ADDR) :
    ttsp_i2c_read_block_data CY_LDR1_I2C_ADDR CY_LDR3_I2C_ADDR bus ts
        subaddr length values i2c_addr use_long_subaddr
      = ReadResult.mk (if bus.recv_status < 0 then bus.recv_status else 0)
          (cyttsp_i2c.mk (i2c_client.mk i2c_addr) ts.wr_buf)
          (deposit values (bus.recv_data.take length))
          [Txn.recv i2c_addr length] := by
  simp only [ttsp_i2c_read_block_data, read_packet, i2c_master_recv, hl,
    if_true, List.nil_append]

/-- Read-block at another address when the address write fails: the send
alone. -/
theorem read_block_send_failed (CY_LDR1_I2C_ADDR CY_LDR3_I2C_ADDR : Int)
    (bus : BusReply) (ts : cyttsp_i2c) (subaddr length : Nat) (values : Mem)
    (i2c_addr : Int) (use_long_subaddr : Bool)
    (hn : ¬ (i2c_addr = CY_LDR1_I2C_ADDR ∨ i2c_addr = CY_LDR3_I2C_ADDR))
    (hs : bus.send_status < 0) :
    ttsp_i2c_read_block_data CY_LDR1_I2C_ADDR CY_LDR3_I2C_ADDR bus ts
        subaddr length values i2c_addr use_long_subaddr
      = ReadResult.mk bus.send_status
          (cyttsp_i2c.mk (i2c_client.mk i2c_addr) ts.wr_buf) values
          [Txn.send i2c_addr
            (readBytes (memOfList (read_sub_addr subaddr use_long_subaddr).1)
              (read_sub_addr subaddr use_long_subaddr).2)
            (read_sub_addr subaddr use_long_subaddr).2] := by
  simp only [ttsp_i2c_read_block_data, i2c_master_send, hn, hs, if_true,
    if_false]

/-- Read-block at another address when the address write succeeds: the send,
then the receive. -/
theorem read_block_send_ok (CY_LDR1_I2C_ADDR CY_LDR3_I2C_ADDR : Int)
    (bus : BusReply) (ts : cyttsp_i2c) (subaddr length : Nat) (values : Mem)
    (i2c_addr : Int) (use_long_subaddr : Bool)
    (hn : ¬ (i2c_addr = CY_LDR1_I2C_ADDR ∨ i2c_addr = CY_LDR3_I2C_ADDR))
    (hs : ¬ bus.send_status < 0) :
    ttsp_i2c_read_block_data CY_LDR1_I2C_ADDR CY_LDR3_I2C_ADDR bus ts
        subaddr length values i2c_addr use_long_subaddr
      = ReadResult.mk (if bus.recv_status < 0 then bus.recv_status else 0)
          (cyttsp_i2c.mk (i2c_client.mk i2c_addr) ts.wr_buf)
          (deposit values (bus.recv_data.take length))
          [Txn.send i2c_addr
            (readBytes (memOfList (read_sub_addr subaddr use_long_subaddr).1)
              (read_sub_addr subaddr use_long_subaddr).2)
            (read_sub_addr subaddr use_long_subaddr).2,
           Txn.recv i2c_addr length] := by
  simp only [ttsp_i2c_read_block_data, read_packet, i2c_master_send,
    i2c_master_recv, hn, hs, if_false, List.singleton_append]

/-- C5. Read-block aborts on address-write failure: for a device address
that is not a loader address and a negative status `e` of the sub-address
send, the trace is that send alone (no receive is issued), the value returned
is `e`, and the destination buffer is unchanged. -/
theorem read_block_abort_on_send_failure
    (CY_LDR1_I2C_ADDR CY_LDR3_I2C_ADDR : Int)
    (bus : BusReply) (ts : cyttsp_i2c) (subaddr length : Nat) (values : Mem)
    (i2c_addr : Int) (use_long_subaddr : Bool) (e : Int)
    (hn : ¬ (i2c_addr = CY_LDR1_I2C_ADDR ∨ i2c_addr = CY_LDR3_I2C_ADDR))
    (he : e < 0) (hs : bus.send_status = e) :
    (∀ a c, Txn.recv a c ∉
      (ttsp_i2c_read_block_data CY_LDR1_I2C_ADDR CY_LDR3_I2C_ADDR bus ts
        subaddr length values i2c_addr use_long_subaddr).trace)
    ∧ (ttsp_i2c_read_block_data CY_LDR1_I2C_ADDR CY_LDR3_I2C_ADDR bus ts
        subaddr length values i2c_addr use_long_subaddr).trace.length = 1
    ∧ (ttsp_i2c_read_block_data CY_LDR1_I2C_ADDR CY_LDR3_I2C_ADDR bus ts
        subaddr length values i2c_addr use_long_subaddr).retval = e
    ∧ (ttsp_i2c_read_block_data CY_LDR1_I2C_ADDR CY_LDR3_I2C_ADDR bus ts
        subaddr length values i2c_addr use_long_subaddr).values = values := by
  have hs2 : bus.send_status < 0 := by omega
  simp only [ttsp_i2c_read_block_data, i2c_master_send, hn, hs2, if_true,
    if_false]
  simp [hs]

/-- Witness for C5: device 0x24, the send fails with status -5. -/
theorem read_block_abort_on_send_failure_witness :
    (ttsp_i2c_read_block_data 0x69 0x6A (BusReply.mk (-5) 8 [1, 2, 3])
        (cyttsp_i2c.mk (i2c_client.mk 0) (fun _ => 0)) 0x10 8
        (fun _ => 0) 0x24 false).retval = -5 :=
  (read_block_abort_on_send_failure 0x69 0x6A (BusReply.mk (-5) 8 [1, 2, 3])
    (cyttsp_i2c.mk (i2c_client.mk 0) (fun _ => 0)) 0x10 8
    (fun _ => 0) 0x24 false (-5) (by decide) (by decide) rfl).2.2.1

/-- C6. Read-block return value: the value returned is 0 exactly when every
transaction issued got a non-negative status; when some transaction failed,
the value returned is the status of the first failing transaction; when the
receive is reached (loader address, or the address write succeeded) and
returns a negative status, that status is returned; and the value returned is
never positive. -/
theorem read_block_return_value (CY_LDR1_I2C_ADDR CY_LDR3_I2C_ADDR : Int)
    (bus : BusReply) (ts : cyttsp_i2c) (subaddr length : Nat) (values : Mem)
    (i2c_addr : Int) (use_long_subaddr : Bool) :
    ((ttsp_i2c_read_block_data CY_LDR1_I2C_ADDR CY_LDR3_I2C_ADDR bus ts
        subaddr length values i2c_addr use_long_subaddr).retval = 0
      ↔ ∀ t ∈ (ttsp_i2c_read_block_data CY_LDR1_I2C_ADDR CY_LDR3_I2C_ADDR bus ts
          subaddr length values i2c_addr use_long_subaddr).trace,
          0 ≤ txn_status bus t)
    ∧ (∀ t, (ttsp_i2c_read_block_data CY_LDR1_I2C_ADDR CY_LDR3_I2C_ADDR bus ts
          subaddr length values i2c_addr use_long_subaddr).trace.find?
            (fun t => decide (txn_status bus t < 0)) = some t →
        (ttsp_i2c_read_block_data CY_LDR1_I2C_ADDR CY_LDR3_I2C_ADDR bus ts
          subaddr length values i2c_addr use_long_subaddr).retval
          = txn_status bus t)
    ∧ (((i2c_addr = CY_LDR1_I2C_ADDR ∨ i2c_addr = CY_LDR3_I2C_ADDR)
          ∨ 0 ≤ bus.send_status) →
        bus.recv_status < 0 →
        (ttsp_i2c_read_block_data CY_LDR1_I2C_ADDR CY_LDR3_I2C_ADDR bus ts
          subaddr length values i2c_addr use_long_subaddr).retval
          = bus.recv_status)
    ∧ (ttsp_i2c_read_block_data CY_LDR1_I2C_ADDR CY_LDR3_I2C_ADDR bus ts
        subaddr length values i2c_addr use_long_subaddr).retval ≤ 0 := by
  by_cases hl : i2c_addr = CY_LDR1_I2C_ADDR ∨ i2c_addr = CY_LDR3_I2C_ADDR
  · rw [read_block_loader _ _ _ _ _ _ _ _ _ hl]
    by_cases hr : bus.recv_status < 0
    · simp [txn_status, List.find?, hr, hl]
      omega
    · simp [txn_status, List.find?, hr, hl]
      omega
  · by_cases hs : bus.send_status < 0
    · rw [read_block_send_failed _ _ _ _ _ _ _ _ _ hl hs]
      simp [txn_status, List.find?, hs, hl]
      omega
    · rw [read_block_send_ok _ _ _ _ _ _ _ _ _ hl hs]
      by_cases hr : bus.recv_status < 0
      · simp [txn_status, List.find?, hs, hr, hl]
        omega
      · simp [txn_status, List.find?, hs, hr, hl]
        omega

/-- Witness for C6: at the loader address 0x69 the receive fails with status
-7, which is the value returned. -/
theorem read_block_return_value_witness :
    (ttsp_i2c_read_block_data 0x69 0x6A (BusReply.mk 1 (-7) [])
        (cyttsp_i2c.mk (i2c_client.mk 0) (fun _ => 0)) 0x10 8
        (fun _ => 0) 0x69 false).retval = -7 :=
  (read_block_return_value 0x69 0x6A (BusReply.mk 1 (-7) [])
    (cyttsp_i2c.mk (i2c_client.mk 0) (fun _ => 0)) 0x10 8
    (fun _ => 0) 0x69 false).2.2.1 (Or.inl (Or.inl rfl)) (by decide)

/-- C7, as stated, fails: it is not the case that every read-block call whose
receive returns a non-negative count smaller than `length` returns a
non-zero status. At device 0x24 with `length = 8` and a receive status of 3
the value returned is 0. -/
theorem read_block_short_receive_counterexample :
    ¬ (∀ (CY_LDR1_I2C_ADDR CY_LDR3_I2C_ADDR : Int) (bus : BusReply)
        (ts : cyttsp_i2c) (subaddr length : Nat) (values : Mem)
        (i2c_addr : Int) (use_long_subaddr : Bool),
        Txn.recv i2c_addr length ∈
          (ttsp_i2c_read_block_data CY_LDR1_I2C_ADDR CY_LDR3_I2C_ADDR bus ts
            subaddr length values i2c_addr use_long_subaddr).trace →
        0 ≤ bus.recv_status → bus.recv_status < (length : Int) →
        (ttsp_i2c_read_block_data CY_LDR1_I2C_ADDR CY_LDR3_I2C_ADDR bus ts
          subaddr length values i2c_addr use_long_subaddr).retval ≠ 0) := by
  intro h
  exact h 0x69 0x6A (BusReply.mk 1 3 [1, 2, 3])
    (cyttsp_i2c.mk (i2c_client.mk 0) (fun _ => 0)) 0x10 8 (fun _ => 0) 0x24
    false (by decide) (by decide) (by decide) (by decide)

/-- C7, amended. When the receive is issued (loader address, or the address
write succeeded) and returns a non-negative count strictly smaller than
`length`, read-block has asked for `length` bytes and returns 0: a short
receive is reported as success. -/
theorem read_block_short_receive_succeeds
    (CY_LDR1_I2C_ADDR CY_LDR3_I2C_ADDR : Int)
    (bus : BusReply) (ts : cyttsp_i2c) (subaddr length : Nat) (values : Mem)
    (i2c_addr : Int) (use_long_subaddr : Bool)
    (hissued : (i2c_addr = CY_LDR1_I2C_ADDR ∨ i2c_addr = CY_LDR3_I2C_ADDR)
      ∨ 0 ≤ bus.send_status)
    (h0 : 0 ≤ bus.recv_status) (_hshort : bus.recv_status < (length : Int)) :
    Txn.recv i2c_addr length ∈
      (ttsp_i2c_read_block_data CY_LDR1_I2C_ADDR CY_LDR3_I2C_ADDR bus ts
        subaddr length values i2c_addr use_long_subaddr).trace
    ∧ (ttsp_i2c_read_block_data CY_LDR1_I2C_ADDR CY_LDR3_I2C_ADDR bus ts
        subaddr length values i2c_addr use_long_subaddr).retval = 0 := by
  have hr : ¬ bus.recv_status < 0 := by omega
  by_cases hl : i2c_addr = CY_LDR1_I2C_ADDR ∨ i2c_addr = CY_LDR3_I2C_ADDR
  · rw [read_block_loader _ _ _ _ _ _ _ _ _ hl]
    simp [hr]
  · have hs : ¬ bus.send_status < 0 := by
      rcases hissued with h | h
      · exact absurd h hl
      · omega
    rw [read_block_send_ok _ _ _ _ _ _ _ _ _ hl hs]
    simp [hr]

/-- Witness for C7 amended: device 0x24, `length = 8`, receive status 3. -/
theorem read_block_short_receive_succeeds_witness :
    Txn.recv 0x24 8 ∈
      (ttsp_i2c_read_block_data 0x69 0x6A (BusReply.mk 1 3 [1, 2, 3])
        (cyttsp_i2c.mk (i2c_client.mk 0) (fun _ => 0)) 0x10 8
        (fun _ => 0) 0x24 false).trace
    ∧ (ttsp_i2c_read_block_data 0x69 0x6A (BusReply.mk 1 3 [1, 2, 3])
        (cyttsp_i2c.mk (i2c_client.mk 0) (fun _ => 0)) 0x10 8
        (fun _ => 0) 0x24 false).retval = 0 :=
  read_block_short_receive_succeeds 0x69 0x6A (BusReply.mk 1 3 [1, 2, 3])
    (cyttsp_i2c.mk (i2c_client.mk 0) (fun _ => 0)) 0x10 8
    (fun _ => 0) 0x24 false (Or.inr (by decide)) (by decide) (by decide)

/-! ## Write block: transaction and status -/

/-- C8. Write-block transaction and status: for every input the trace is one
send, to the supplied device address, of the first `n` bytes of the staging
buffer, where `n` is the effective frame length (the `u8` variable `length`
after framing); the value returned is the status of the send when that status is
negative and 0 otherwise. -/
theorem write_block_single_send (CY_LDR1_I2C_ADDR CY_LDR3_I2C_ADDR : Int)
    (bus : BusReply) (ts : cyttsp_i2c) (subaddr length : Nat) (values : Mem)
    (i2c_addr : Int) (use_long_subaddr : Bool) :
    (ttsp_i2c_write_block_data CY_LDR1_I2C_ADDR CY_LDR3_I2C_ADDR bus ts
        subaddr length values i2c_addr use_long_subaddr).trace
      = [Txn.send i2c_addr
          (readBytes (ttsp_i2c_write_block_data CY_LDR1_I2C_ADDR CY_LDR3_I2C_ADDR
              bus ts subaddr length values i2c_addr use_long_subaddr).ts.wr_buf
            (if use_long_subaddr then (length + 2) % 256
             else if i2c_addr = CY_LDR1_I2C_ADDR ∨ i2c_addr = CY_LDR3_I2C_ADDR
               then length
             else (length + 1) % 256))
          (if use_long_subaddr then (length + 2) % 256
           else if i2c_addr = CY_LDR1_I2C_ADDR ∨ i2c_addr = CY_LDR3_I2C_ADDR
             then length
           else (length + 1) % 256)]
    ∧ (ttsp_i2c_write_block_data CY_LDR1_I2C_ADDR CY_LDR3_I2C_ADDR bus ts
        subaddr length values i2c_addr use_long_subaddr).trace.length = 1
    ∧ (ttsp_i2c_write_block_data CY_LDR1_I2C_ADDR CY_LDR3_I2C_ADDR bus ts
        subaddr length values i2c_addr use_long_subaddr).retval
      = (if bus.send_status < 0 then bus.send_status else 0)
    ∧ (ttsp_i2c_write_block_data CY_LDR1_I2C_ADDR CY_LDR3_I2C_ADDR bus ts
        subaddr length values i2c_addr use_long_subaddr).retval ≤ 0 := by
  refine ⟨?_, rfl, rfl, ?_⟩
  · cases use_long_subaddr with
    | true => rfl
    | false =>
      by_cases hl : i2c_addr = CY_LDR1_I2C_ADDR ∨ i2c_addr = CY_LDR3_I2C_ADDR
      · simp only [ttsp_i2c_write_block_data, write_frame, i2c_master_send, hl,
          if_true, if_false, Bool.false_eq_true]
      · simp only [ttsp_i2c_write_block_data, write_frame, i2c_master_send, hl,
          if_false, Bool.false_eq_true, u8]
  · show (if bus.send_status < 0 then bus.send_status else 0) ≤ 0
    split_ifs with h <;> omega

/-! ## Write block: extent of the stores -/

/-- The offsets written by a `memcpy` stay below a bound exactly when the
copy is empty or ends at or before the bound. -/
theorem memcpy_below_iff (off : Nat) (src : Mem) (n B : Nat) :
    (∀ s ∈ memcpy off src n, s.1 < B) ↔ (n = 0 ∨ off + n ≤ B) := by
  constructor
  · intro h
    rcases Nat.eq_zero_or_pos n with h0 | hpos
    · exact Or.inl h0
    · right
      have hm : (off + (n - 1), src (n - 1)) ∈ memcpy off src n :=
        (memcpy_offsets off src n _).2 ⟨n - 1, by omega, rfl⟩
      have := h _ hm
      simp only at this
      omega
  · intro h s hs
    obtain ⟨i, hi, rfl⟩ := (memcpy_offsets off src n s).1 hs
    simp only
    omega

/-- The framing code stays inside the staging buffer exactly when header plus
payload are at most `CY_I2C_DATA_SIZE` bytes. -/
theorem write_frame_in_bounds_iff (CY_LDR1_I2C_ADDR CY_LDR3_I2C_ADDR : Int)
    (subaddr length : Nat) (values : Mem) (i2c_addr : Int)
    (use_long_subaddr : Bool) :
    stores_in_bounds (write_frame CY_LDR1_I2C_ADDR CY_LDR3_I2C_ADDR subaddr
        length values i2c_addr use_long_subaddr).1
      ↔ length + (if use_long_subaddr then 2
          else if i2c_addr = CY_LDR1_I2C_ADDR ∨ i2c_addr = CY_LDR3_I2C_ADDR then 0
          else 1) ≤ CY_I2C_DATA_SIZE := by
  unfold stores_in_bounds
  cases use_long_subaddr with
  | true =>
    simp only [write_frame, if_true, List.forall_mem_cons, memcpy_below_iff,
      CY_I2C_DATA_SIZE]
    omega
  | false =>
    by_cases hl : i2c_addr = CY_LDR1_I2C_ADDR ∨ i2c_addr = CY_LDR3_I2C_ADDR
    · simp only [write_frame, hl, if_true, if_false, Bool.false_eq_true,
        memcpy_below_iff, CY_I2C_DATA_SIZE]
      omega
    · simp only [write_frame, hl, if_false, Bool.false_eq_true,
        List.forall_mem_cons, memcpy_below_iff, CY_I2C_DATA_SIZE]
      omega

/-- C9, as stated, fails: it is not the case that for every 8-bit length
every offset written into `wr_buf` is below `CY_I2C_DATA_SIZE`. With
`length = 127` and the long flag set, offset 128 is written. -/
theorem write_block_no_overflow_counterexample :
    ¬ (∀ (CY_LDR1_I2C_ADDR CY_LDR3_I2C_ADDR : Int) (bus : BusReply)
        (ts : cyttsp_i2c) (subaddr length : Nat) (values : Mem)
        (i2c_addr : Int) (use_long_subaddr : Bool),
        length ≤ 255 →
        stores_in_bounds
          (ttsp_i2c_write_block_data CY_LDR1_I2C_ADDR CY_LDR3_I2C_ADDR bus ts
            subaddr length values i2c_addr use_long_subaddr).stores) := by
  intro h
  have hm : ((128, 0) : Store) ∈
      (ttsp_i2c_write_block_data 0x69 0x6A (BusReply.mk 0 0 [])
        (cyttsp_i2c.mk (i2c_client.mk 0) (fun _ => 0)) 0x10 127 (fun _ => 0)
        0x24 true).stores := by
    show ((128, 0) : Store) ∈ (0, u8 (0x10 >>> 8)) :: (1, u8 0x10) ::
      memcpy 2 (fun _ => 0) 127
    refine List.mem_cons_of_mem _ (List.mem_cons_of_mem _ ?_)
    exact (memcpy_offsets 2 (fun _ => 0) 127 _).2 ⟨126, by decide, rfl⟩
  have := h 0x69 0x6A (BusReply.mk 0 0 [])
    (cyttsp_i2c.mk (i2c_client.mk 0) (fun _ => 0)) 0x10 127 (fun _ => 0)
    0x24 true (by decide) _ hm
  exact absurd this (by decide)

/-- C9, amended. The framer has no bounds check of its own: for an 8-bit
length, every offset it writes into `wr_buf` is below `CY_I2C_DATA_SIZE`
exactly when the payload length plus the header length (2 under the long
flag, 0 for a loader address with the flag clear, 1 otherwise) is at most
`CY_I2C_DATA_SIZE`; in particular for every length up to 126. -/
theorem write_block_in_bounds_iff (CY_LDR1_I2C_ADDR CY_LDR3_I2C_ADDR : Int)
    (bus : BusReply) (ts : cyttsp_i2c) (subaddr length : Nat) (values : Mem)
    (i2c_addr : Int) (use_long_subaddr : Bool) (_hlen : length ≤ 255) :
    (stores_in_bounds
        (ttsp_i2c_write_block_data CY_LDR1_I2C_ADDR CY_LDR3_I2C_ADDR bus ts
          subaddr length values i2c_addr use_long_subaddr).stores
      ↔ length + (if use_long_subaddr then 2
          else if i2c_addr = CY_LDR1_I2C_ADDR ∨ i2c_addr = CY_LDR3_I2C_ADDR then 0
          else 1) ≤ CY_I2C_DATA_SIZE)
    ∧ (length ≤ 126 →
        stores_in_bounds
          (ttsp_i2c_write_block_data CY_LDR1_I2C_ADDR CY_LDR3_I2C_ADDR bus ts
            subaddr length values i2c_addr use_long_subaddr).stores) := by
  have key := write_frame_in_bounds_iff CY_LDR1_I2C_ADDR CY_LDR3_I2C_ADDR subaddr
    length values i2c_addr use_long_subaddr
  refine ⟨key, fun h126 => key.2 ?_⟩
  simp only [CY_I2C_DATA_SIZE]
  split_ifs <;> omega

/-- Witness for C9 amended: `length = 127` with a one-byte header (device
0x24, flag clear) is 128 bytes and stays in bounds. -/
theorem write_block_in_bounds_iff_witness :
    stores_in_bounds
      (ttsp_i2c_write_block_data 0x69 0x6A (BusReply.mk 0 0 [])
        (cyttsp_i2c.mk (i2c_client.mk 0) (fun _ => 0)) 0x10 127 (fun _ => 0)
        0x24 false).stores :=
  (write_block_in_bounds_iff 0x69 0x6A (BusReply.mk 0 0 [])
    (cyttsp_i2c.mk (i2c_client.mk 0) (fun _ => 0)) 0x10 127 (fun _ => 0)
    0x24 false (by decide)).1.2 (by decide)

/-- Offsets written by a `memcpy`, in order. -/
theorem memcpy_map_fst (off : Nat) (src : Mem) (n : Nat) :
    (memcpy off src n).map Prod.fst = (List.range n).map (fun i => off + i) := by
  simp [memcpy, List.map_map, Function.comp_def]

/-- C10. Payload limit of 126: for a payload length of at least 1 (and at
most 255), the frame built by write-block stays inside the 128-byte staging
buffer for every device address and either flag exactly when the length is
at most 126; and with length 127 under the long flag the offsets written are
0 .. 128, that is 129 bytes. -/
theorem write_block_payload_limit (CY_LDR1_I2C_ADDR CY_LDR3_I2C_ADDR : Int)
    (bus : BusReply) (ts : cyttsp_i2c) (length : Nat)
    (_hlo : 1 ≤ length) (_hhi : length ≤ 255) :
    ((∀ (subaddr : Nat) (values : Mem) (i2c_addr : Int)
        (use_long_subaddr : Bool),
        stores_in_bounds
          (ttsp_i2c_write_block_data CY_LDR1_I2C_ADDR CY_LDR3_I2C_ADDR bus ts
            subaddr length values i2c_addr use_long_subaddr).stores)
      ↔ length ≤ 126)
    ∧ (∀ (subaddr : Nat) (values : Mem) (i2c_addr : Int),
        ((ttsp_i2c_write_block_data CY_LDR1_I2C_ADDR CY_LDR3_I2C_ADDR bus ts
            subaddr 127 values i2c_addr true).stores.map Prod.fst)
          = List.range 129) := by
  constructor
  · constructor
    · intro h
      have := (write_frame_in_bounds_iff CY_LDR1_I2C_ADDR CY_LDR3_I2C_ADDR 0
        length (fun _ => 0) 0 true).1 (h 0 (fun _ => 0) 0 true)
      simp only [if_true, CY_I2C_DATA_SIZE] at this
      omega
    · intro h subaddr values i2c_addr use_long_subaddr
      apply (write_frame_in_bounds_iff CY_LDR1_I2C_ADDR CY_LDR3_I2C_ADDR subaddr
        length values i2c_addr use_long_subaddr).2
      simp only [CY_I2C_DATA_SIZE]
      split_ifs <;> omega
  · intro subaddr values i2c_addr
    show ((0, u8 (subaddr >>> 8)) :: (1, u8 subaddr) ::
      memcpy 2 values 127).map Prod.fst = List.range 129
    rw [List.map_cons, List.map_cons, memcpy_map_fst]
    show 0 :: 1 :: (List.range 127).map (fun i => 2 + i) = List.range 129
    decide

/-- Witness for C10: length 126 fits, here at device 0x24 under the long
flag. -/
theorem write_block_payload_limit_witness :
    stores_in_bounds
      (ttsp_i2c_write_block_data 0x69 0x6A (BusReply.mk 0 0 [])
        (cyttsp_i2c.mk (i2c_client.mk 0) (fun _ => 0))
        0x10 126 (fun _ => 0) 0x24 true).stores :=
  (write_block_payload_limit 0x69 0x6A (BusReply.mk 0 0 [])
    (cyttsp_i2c.mk (i2c_client.mk 0) (fun _ => 0)) 126
    (by decide) (by decide)).1.2 (by decide) 0x10 (fun _ => 0) 0x24 true

/-! ## Extension hook -/

/-- C11. Extension hook result: with a positive errno constant `EIO`, the
hook returns `-EIO`, a negative value, when the handle is null or the value
pointer is null, and 0 when both are non-null; it never returns a positive
value, issues no bus transaction and leaves the adapter as it was. -/
theorem tch_ext_result ( EIO : Int) (mem : cyttsp_i2c) (handle values : Nat)
    (hE : 0 < EIO) :
    (handle = 0 ∨ values = 0 →
      (ttsp_i2c_tch_ext EIO mem handle values).retval = - EIO
      ∧ (ttsp_i2c_tch_ext EIO mem handle values).retval < 0)
    ∧ (handle ≠ 0 → values ≠ 0 →
      (ttsp_i2c_tch_ext EIO mem handle values).retval = 0)
    ∧ (ttsp_i2c_tch_ext EIO mem handle values).retval ≤ 0
    ∧ (ttsp_i2c_tch_ext EIO mem handle values).trace = []
    ∧ (ttsp_i2c_tch_ext EIO mem handle values).ts = mem := by
  refine ⟨?_, ?_, ?_, rfl, rfl⟩
  · intro h
    have h2 : container_of handle = 0 ∨ values = 0 := by
      simpa [container_of] using h
    have hr : (ttsp_i2c_tch_ext EIO mem handle values).retval = - EIO := by
      simp only [ttsp_i2c_tch_ext, h2, if_true]
    exact ⟨hr, by rw [hr]; omega⟩
  · intro h1 h2
    have h3 : ¬ (container_of handle = 0 ∨ values = 0) := by
      simp [container_of, h1, h2]
    simp only [ttsp_i2c_tch_ext, h3, if_false]
  · simp only [ttsp_i2c_tch_ext]
    split_ifs <;> omega

/-- Witness for C11: with `EIO = 5`, a null handle gives -5 and a pair of
non-null pointers gives 0. -/
theorem tch_ext_result_witness :
    (ttsp_i2c_tch_ext 5 (cyttsp_i2c.mk (i2c_client.mk 0) (fun _ => 0)) 0 7).retval
      = -5
    ∧ (ttsp_i2c_tch_ext 5 (cyttsp_i2c.mk (i2c_client.mk 0) (fun _ => 0)) 3 7).retval
      = 0 :=
  ⟨((tch_ext_result 5 (cyttsp_i2c.mk (i2c_client.mk 0) (fun _ => 0)) 0 7
      (by decide)).1 (Or.inl rfl)).1,
   (tch_ext_result 5 (cyttsp_i2c.mk (i2c_client.mk 0) (fun _ => 0)) 3 7
      (by decide)).2.1 (by decide) (by decide)⟩

/-! ## Addressing mode of the two paths -/

theorem memcpy_length (off : Nat) (src : Mem) (n : Nat) :
    (memcpy off src n).length = n := by
  simp [memcpy]

/-- Sub-address bytes put on the bus by read-block: none for a loader
address, otherwise 2 under the long flag and 1 without it. -/
theorem read_subaddr_bytes_eq (CY_LDR1_I2C_ADDR CY_LDR3_I2C_ADDR : Int)
    (bus : BusReply) (ts : cyttsp_i2c) (subaddr length : Nat) (values : Mem)
    (i2c_addr : Int) (use_long_subaddr : Bool) :
    read_subaddr_bytes
        (ttsp_i2c_read_block_data CY_LDR1_I2C_ADDR CY_LDR3_I2C_ADDR bus ts
          subaddr length values i2c_addr use_long_subaddr)
      = if i2c_addr = CY_LDR1_I2C_ADDR ∨ i2c_addr = CY_LDR3_I2C_ADDR then 0
        else if use_long_subaddr then 2 else 1 := by
  by_cases hl : i2c_addr = CY_LDR1_I2C_ADDR ∨ i2c_addr = CY_LDR3_I2C_ADDR
  · rw [read_block_loader _ _ _ _ _ _ _ _ _ hl]
    simp [read_subaddr_bytes, sent_counts, hl]
  · by_cases hs : bus.send_status < 0
    · rw [read_block_send_failed _ _ _ _ _ _ _ _ _ hl hs]
      cases use_long_subaddr <;>
        simp [read_subaddr_bytes, sent_counts, read_sub_addr, hl]
    · rw [read_block_send_ok _ _ _ _ _ _ _ _ _ hl hs]
      cases use_long_subaddr <;>
        simp [read_subaddr_bytes, sent_counts, read_sub_addr, hl]

/-- Header bytes put before the payload by write-block: 2 under the long
flag, otherwise none for a loader address and 1 for any other address. -/
theorem write_header_bytes_eq (CY_LDR1_I2C_ADDR CY_LDR3_I2C_ADDR : Int)
    (bus : BusReply) (ts : cyttsp_i2c) (subaddr length : Nat) (values : Mem)
    (i2c_addr : Int) (use_long_subaddr : Bool) :
    write_header_bytes
        (ttsp_i2c_write_block_data CY_LDR1_I2C_ADDR CY_LDR3_I2C_ADDR bus ts
          subaddr length values i2c_addr use_long_subaddr) length
      = if use_long_subaddr then 2
        else if i2c_addr = CY_LDR1_I2C_ADDR ∨ i2c_addr = CY_LDR3_I2C_ADDR then 0
        else 1 := by
  cases use_long_subaddr with
  | true =>
    simp only [write_header_bytes, ttsp_i2c_write_block_data, write_frame,
      if_true, List.length_cons, memcpy_length]
    omega
  | false =>
    by_cases hl : i2c_addr = CY_LDR1_I2C_ADDR ∨ i2c_addr = CY_LDR3_I2C_ADDR
    · simp only [write_header_bytes, ttsp_i2c_write_block_data, write_frame,
        hl, if_true, if_false, Bool.false_eq_true, memcpy_length]
      omega
    · simp only [write_header_bytes, ttsp_i2c_write_block_data, write_frame,
        hl, if_false, Bool.false_eq_true, List.length_cons, memcpy_length]
      omega

/-- C12, as stated, fails: the two paths do not resolve the addressing mode
identically. At the loader address `CY_LDR1_I2C_ADDR` (here 0x69) with the
long flag set, read-block puts no sub-address byte on the bus while
write-block puts two header bytes before the payload. -/
theorem read_write_same_framing_counterexample :
    read_subaddr_bytes
        (ttsp_i2c_read_block_data 0x69 0x6A (BusReply.mk 2 8 [])
          (cyttsp_i2c.mk (i2c_client.mk 0) (fun _ => 0)) 0x1234 8 (fun _ => 0)
          0x69 true) = 0
    ∧ write_header_bytes
        (ttsp_i2c_write_block_data 0x69 0x6A (BusReply.mk 2 8 [])
          (cyttsp_i2c.mk (i2c_client.mk 0) (fun _ => 0)) 0x1234 8 (fun _ => 0)
          0x69 true) 8 = 2
    ∧ ¬ (∀ (CY_LDR1_I2C_ADDR CY_LDR3_I2C_ADDR : Int) (bus : BusReply)
        (ts : cyttsp_i2c) (subaddr length : Nat) (values : Mem)
        (i2c_addr : Int) (use_long_subaddr : Bool),
        read_subaddr_bytes
            (ttsp_i2c_read_block_data CY_LDR1_I2C_ADDR CY_LDR3_I2C_ADDR bus ts
              subaddr length values i2c_addr use_long_subaddr)
          = write_header_bytes
            (ttsp_i2c_write_block_data CY_LDR1_I2C_ADDR CY_LDR3_I2C_ADDR bus ts
              subaddr length values i2c_addr use_long_subaddr) length) := by
  refine ⟨by decide, by decide, ?_⟩
  intro h
  have := h 0x69 0x6A (BusReply.mk 2 8 [])
    (cyttsp_i2c.mk (i2c_client.mk 0) (fun _ => 0)) 0x1234 8 (fun _ => 0)
    0x69 true
  exact absurd this (by decide)

/-- C12, amended. For every device address and flag, the number of
sub-address bytes read-block puts on the bus equals the number of header bytes
write-block puts before the payload, except for a loader address with the
long flag set; there read-block sends none and write-block puts two. -/
theorem read_write_same_framing_iff (CY_LDR1_I2C_ADDR CY_LDR3_I2C_ADDR : Int)
    (bus : BusReply) (ts : cyttsp_i2c) (subaddr length : Nat) (values : Mem)
    (i2c_addr : Int) (use_long_subaddr : Bool) :
    (read_subaddr_bytes
          (ttsp_i2c_read_block_data CY_LDR1_I2C_ADDR CY_LDR3_I2C_ADDR bus ts
            subaddr length values i2c_addr use_long_subaddr)
        = write_header_bytes
          (ttsp_i2c_write_block_data CY_LDR1_I2C_ADDR CY_LDR3_I2C_ADDR bus ts
            subaddr length values i2c_addr use_long_subaddr) length
      ↔ ¬ ((i2c_addr = CY_LDR1_I2C_ADDR ∨ i2c_addr = CY_LDR3_I2C_ADDR)
            ∧ use_long_subaddr = true))
    ∧ ((i2c_addr = CY_LDR1_I2C_ADDR ∨ i2c_addr = CY_LDR3_I2C_ADDR) →
        use_long_subaddr = true →
        read_subaddr_bytes
            (ttsp_i2c_read_block_data CY_LDR1_I2C_ADDR CY_LDR3_I2C_ADDR bus ts
              subaddr length values i2c_addr use_long_subaddr) = 0
        ∧ write_header_bytes
            (ttsp_i2c_write_block_data CY_LDR1_I2C_ADDR CY_LDR3_I2C_ADDR bus ts
              subaddr length values i2c_addr use_long_subaddr) length = 2) := by
  rw [read_subaddr_bytes_eq, write_header_bytes_eq]
  by_cases hl : i2c_addr = CY_LDR1_I2C_ADDR ∨ i2c_addr = CY_LDR3_I2C_ADDR <;>
    cases use_long_subaddr <;> simp [hl]

/-- Witness for C12 amended: device 0x24 under the long flag, two bytes on
both paths. -/
theorem read_write_same_framing_iff_witness :
    read_subaddr_bytes
        (ttsp_i2c_read_block_data 0x69 0x6A (BusReply.mk 2 8 [])
          (cyttsp_i2c.mk (i2c_client.mk 0) (fun _ => 0)) 0x1234 8 (fun _ => 0)
          0x24 true)
      = write_header_bytes
        (ttsp_i2c_write_block_data 0x69 0x6A (BusReply.mk 2 8 [])
          (cyttsp_i2c.mk (i2c_client.mk 0) (fun _ => 0)) 0x1234 8 (fun _ => 0)
          0x24 true) 8 :=
  (read_write_same_framing_iff 0x69 0x6A (BusReply.mk 2 8 [])
    (cyttsp_i2c.mk (i2c_client.mk 0) (fun _ => 0)) 0x1234 8 (fun _ => 0)
    0x24 true).1.2 (by decide)

/-! ## Sub-address encoding -/

/-- C13. Sub-address encoding: for 16-bit sub-addresses `s` and `t`, the
two-byte encoding of both paths is `s / 256` then `s % 256`; its bytes `b0`,
`b1` satisfy `256 * b0 + b1 = s`, and it is injective; the one-byte encoding
of both paths is `s % 256`, and two sub-addresses have the same one-byte
encoding exactly when they agree modulo 256. -/
theorem subaddr_encoding (CY_LDR1_I2C_ADDR CY_LDR3_I2C_ADDR : Int)
    (bus : BusReply) (ts : cyttsp_i2c) (length : Nat) (values : Mem)
    (i2c_addr : Int) (s t : Nat) (hs : s < 65536) (ht : t < 65536) :
    (read_sub_addr s true).1 = [s / 256, s % 256]
    ∧ (ttsp_i2c_write_block_data CY_LDR1_I2C_ADDR CY_LDR3_I2C_ADDR bus ts
        s length values i2c_addr true).stores.take 2
      = [(0, s / 256), (1, s % 256)]
    ∧ (∀ b0 b1, (read_sub_addr s true).1 = [b0, b1] → 256 * b0 + b1 = s)
    ∧ ((read_sub_addr s true).1 = (read_sub_addr t true).1 → s = t)
    ∧ (read_sub_addr s false).1 = [s % 256]
    ∧ (¬ (i2c_addr = CY_LDR1_I2C_ADDR ∨ i2c_addr = CY_LDR3_I2C_ADDR) →
        (ttsp_i2c_write_block_data CY_LDR1_I2C_ADDR CY_LDR3_I2C_ADDR bus ts
          s length values i2c_addr false).stores.take 1 = [(0, s % 256)])
    ∧ ((read_sub_addr s false).1 = (read_sub_addr t false).1
        ↔ s % 256 = t % 256) := by
  have hhs : u8 (s >>> 8) = s / 256 := u8_hi_div s hs
  have hht : u8 (t >>> 8) = t / 256 := u8_hi_div t ht
  have hls : u8 s = s % 256 := rfl
  have hlt : u8 t = t % 256 := rfl
  have e2s : (read_sub_addr s true).1 = [s / 256, s % 256] := by
    simp only [read_sub_addr, if_true, hhs, hls]
  have e2t : (read_sub_addr t true).1 = [t / 256, t % 256] := by
    simp only [read_sub_addr, if_true, hht, hlt]
  have e1s : (read_sub_addr s false).1 = [s % 256] := by
    simp only [read_sub_addr, Bool.false_eq_true, if_false, hls]
  have e1t : (read_sub_addr t false).1 = [t % 256] := by
    simp only [read_sub_addr, Bool.false_eq_true, if_false, hlt]
  refine ⟨e2s, ?_, ?_, ?_, e1s, ?_, ?_⟩
  · simp only [ttsp_i2c_write_block_data, write_frame, if_true, hhs, hls]
    rfl
  · intro b0 b1 h
    rw [e2s] at h
    simp only [List.cons.injEq, and_true] at h
    omega
  · intro h
    rw [e2s, e2t] at h
    simp only [List.cons.injEq, and_true] at h
    omega
  · intro hn
    simp only [ttsp_i2c_write_block_data, write_frame, hn, if_false,
      Bool.false_eq_true, hls]
    rfl
  · rw [e1s, e1t]
    simp

/-- Witness for C13: 0x1234 encodes as 0x12, 0x34 on the read path. -/
theorem subaddr_encoding_witness :
    (read_sub_addr 0x1234 true).1 = [0x1234 / 256, 0x1234 % 256] :=
  (subaddr_encoding 0x69 0x6A (BusReply.mk 0 0 [])
    (cyttsp_i2c.mk (i2c_client.mk 0) (fun _ => 0)) 4 (fun _ => 0) 0x24
    0x1234 0x0034 (by decide) (by decide)).1

/-! ## Read block: frame condition -/

/-- C14. Read-block frame condition: for every input and every bus outcome
the staging buffer after the call is the staging buffer before it, on all
`CY_I2C_DATA_SIZE` bytes, and the adapter afterwards is the adapter before
with the address field of the bus handle set to the supplied device address,
whether the call succeeded or failed. -/
theorem read_block_frame_condition (CY_LDR1_I2C_ADDR CY_LDR3_I2C_ADDR : Int)
    (bus : BusReply) (ts : cyttsp_i2c) (subaddr length : Nat) (values : Mem)
    (i2c_addr : Int) (use_long_subaddr : Bool) :
    readBytes (ttsp_i2c_read_block_data CY_LDR1_I2C_ADDR CY_LDR3_I2C_ADDR bus ts
        subaddr length values i2c_addr use_long_subaddr).ts.wr_buf
        CY_I2C_DATA_SIZE
      = readBytes ts.wr_buf CY_I2C_DATA_SIZE
    ∧ (ttsp_i2c_read_block_data CY_LDR1_I2C_ADDR CY_LDR3_I2C_ADDR bus ts
        subaddr length values i2c_addr use_long_subaddr).ts.wr_buf = ts.wr_buf
    ∧ (ttsp_i2c_read_block_data CY_LDR1_I2C_ADDR CY_LDR3_I2C_ADDR bus ts
        subaddr length values i2c_addr use_long_subaddr).ts.client.addr
      = i2c_addr
    ∧ (ttsp_i2c_read_block_data CY_LDR1_I2C_ADDR CY_LDR3_I2C_ADDR bus ts
        subaddr length values i2c_addr use_long_subaddr).ts
      = cyttsp_i2c.mk (i2c_client.mk i2c_addr) ts.wr_buf := by
  have key : (ttsp_i2c_read_block_data CY_LDR1_I2C_ADDR CY_LDR3_I2C_ADDR bus ts
        subaddr length values i2c_addr use_long_subaddr).ts
      = cyttsp_i2c.mk (i2c_client.mk i2c_addr) ts.wr_buf := by
    by_cases hl : i2c_addr = CY_LDR1_I2C_ADDR ∨ i2c_addr = CY_LDR3_I2C_ADDR
    · rw [read_block_loader _ _ _ _ _ _ _ _ _ hl]
    · by_cases hs : bus.send_status < 0
      · rw [read_block_send_failed _ _ _ _ _ _ _ _ _ hl hs]
      · rw [read_block_send_ok _ _ _ _ _ _ _ _ _ hl hs]
  rw [key]
  exact ⟨rfl, rfl, rfl, rfl⟩

/-! ## Write block: transmit length and staging data -/

/-- The count of the one send of write-block is the `u8` variable `length`
after framing. -/
theorem write_block_sent_counts (CY_LDR1_I2C_ADDR CY_LDR3_I2C_ADDR : Int)
    (bus : BusReply) (ts : cyttsp_i2c) (subaddr length : Nat) (values : Mem)
    (i2c_addr : Int) (use_long_subaddr : Bool) :
    sent_counts (ttsp_i2c_write_block_data CY_LDR1_I2C_ADDR CY_LDR3_I2C_ADDR bus
        ts subaddr length values i2c_addr use_long_subaddr).trace
      = [if use_long_subaddr then (length + 2) % 256
         else if i2c_addr = CY_LDR1_I2C_ADDR ∨ i2c_addr = CY_LDR3_I2C_ADDR
           then length
         else (length + 1) % 256] := by
  cases use_long_subaddr with
  | true => rfl
  | false =>
    by_cases hl : i2c_addr = CY_LDR1_I2C_ADDR ∨ i2c_addr = CY_LDR3_I2C_ADDR
    · simp only [ttsp_i2c_write_block_data, write_frame, i2c_master_send, hl,
        if_true, if_false, Bool.false_eq_true, sent_counts]
    · simp only [ttsp_i2c_write_block_data, write_frame, i2c_master_send, hl,
        if_false, Bool.false_eq_true, u8, sent_counts]

/-- C15. Transmit length wraps at 8 bits: for an 8-bit `length` the count
handed to the bus send is `(length + p) % 256`, with `p` the header length
(2 under the long flag, 0 for a loader address with the flag clear, 1
otherwise); it is `length + p` exactly when `length + p ≤ 255`; for length
254 or 255 under the long flag it is 0 or 1, and for length 255 with a
one-byte header it is 0, in each case less than the payload length. -/
theorem write_block_transmit_length_wraps
    (CY_LDR1_I2C_ADDR CY_LDR3_I2C_ADDR : Int)
    (bus : BusReply) (ts : cyttsp_i2c) (subaddr length : Nat) (values : Mem)
    (i2c_addr : Int) (use_long_subaddr : Bool) (hlen : length ≤ 255) :
    sent_counts (ttsp_i2c_write_block_data CY_LDR1_I2C_ADDR CY_LDR3_I2C_ADDR bus
        ts subaddr length values i2c_addr use_long_subaddr).trace
      = [(length + (if use_long_subaddr then 2
            else if i2c_addr = CY_LDR1_I2C_ADDR ∨ i2c_addr = CY_LDR3_I2C_ADDR
              then 0
            else 1)) % 256]
    ∧ (sent_counts (ttsp_i2c_write_block_data CY_LDR1_I2C_ADDR CY_LDR3_I2C_ADDR
          bus ts subaddr length values i2c_addr use_long_subaddr).trace
        = [length + (if use_long_subaddr then 2
            else if i2c_addr = CY_LDR1_I2C_ADDR ∨ i2c_addr = CY_LDR3_I2C_ADDR
              then 0
            else 1)]
      ↔ length + (if use_long_subaddr then 2
            else if i2c_addr = CY_LDR1_I2C_ADDR ∨ i2c_addr = CY_LDR3_I2C_ADDR
              then 0
            else 1) ≤ 255)
    ∧ (254 ≤ length → use_long_subaddr = true →
        sent_counts (ttsp_i2c_write_block_data CY_LDR1_I2C_ADDR CY_LDR3_I2C_ADDR
          bus ts subaddr length values i2c_addr use_long_subaddr).trace
          = [length - 254]
        ∧ length - 254 < length)
    ∧ (length = 255 → use_long_subaddr = false →
        ¬ (i2c_addr = CY_LDR1_I2C_ADDR ∨ i2c_addr = CY_LDR3_I2C_ADDR) →
        sent_counts (ttsp_i2c_write_block_data CY_LDR1_I2C_ADDR CY_LDR3_I2C_ADDR
          bus ts subaddr length values i2c_addr use_long_subaddr).trace
          = [0]) := by
  rw [write_block_sent_counts]
  cases use_long_subaddr with
  | true =>
    refine ⟨?_, ?_, ?_, ?_⟩
    · simp only [if_true]
    · simp only [if_true, List.cons.injEq, and_true]
      omega
    · intro h _
      simp only [if_true, List.cons.injEq, and_true]
      omega
    · intro _ h
      exact absurd h (by decide)
  | false =>
    by_cases hl : i2c_addr = CY_LDR1_I2C_ADDR ∨ i2c_addr = CY_LDR3_I2C_ADDR
    · refine ⟨?_, ?_, ?_, ?_⟩
      · simp only [hl, if_true, if_false, Bool.false_eq_true, List.cons.injEq,
          and_true]
        omega
      · simp only [hl, if_true, if_false, Bool.false_eq_true, List.cons.injEq,
          and_true]
        omega
      · intro _ h
        exact absurd h (by decide)
      · intro _ _ h
        exact absurd hl h
    · refine ⟨?_, ?_, ?_, ?_⟩
      · simp only [hl, if_false, Bool.false_eq_true]
      · simp only [hl, if_false, Bool.false_eq_true, List.cons.injEq, and_true]
        omega
      · intro _ h
        exact absurd h (by decide)
      · intro h _ _
        simp only [hl, if_false, Bool.false_eq_true, List.cons.injEq, and_true]
        omega

/-- Witness for C15: length 255 under the long flag is sent with count 1. -/
theorem write_block_transmit_length_wraps_witness :
    sent_counts (ttsp_i2c_write_block_data 0x69 0x6A (BusReply.mk 0 0 [])
        (cyttsp_i2c.mk (i2c_client.mk 0) (fun _ => 0)) 0x10 255 (fun _ => 0)
        0x24 true).trace = [255 - 254]
    ∧ 255 - 254 < 255 :=
  (write_block_transmit_length_wraps 0x69 0x6A (BusReply.mk 0 0 [])
    (cyttsp_i2c.mk (i2c_client.mk 0) (fun _ => 0)) 0x10 255 (fun _ => 0)
    0x24 true (by decide)).2.2.1 (by decide) rfl

/-- The one send of write-block, for a length whose frame length does not
wrap: it carries the header bytes followed by the payload, whatever the
staging buffer held before. -/
theorem write_block_trace_framed (CY_LDR1_I2C_ADDR CY_LDR3_I2C_ADDR : Int)
    (bus : BusReply) (ts : cyttsp_i2c) (subaddr length : Nat) (values : Mem)
    (i2c_addr : Int) (use_long_subaddr : Bool) (hlen : length ≤ 253) :
    (ttsp_i2c_write_block_data CY_LDR1_I2C_ADDR CY_LDR3_I2C_ADDR bus ts
        subaddr length values i2c_addr use_long_subaddr).trace
      = [if use_long_subaddr then
           Txn.send i2c_addr
             (u8 (subaddr >>> 8) :: u8 subaddr :: readBytes values length)
             (length + 2)
         else if i2c_addr = CY_LDR1_I2C_ADDR ∨ i2c_addr = CY_LDR3_I2C_ADDR then
           Txn.send i2c_addr (readBytes values length) length
         else
           Txn.send i2c_addr (u8 subaddr :: readBytes values length)
             (length + 1)] := by
  have h2 : u8 (length + 2) = length + 2 := u8_of_lt _ (by omega)
  have h1 : u8 (length + 1) = length + 1 := u8_of_lt _ (by omega)
  cases use_long_subaddr with
  | true =>
    simp only [ttsp_i2c_write_block_data, write_frame, i2c_master_send, if_true,
      h2, frame_bytes_long]
  | false =>
    by_cases hl : i2c_addr = CY_LDR1_I2C_ADDR ∨ i2c_addr = CY_LDR3_I2C_ADDR
    · simp only [ttsp_i2c_write_block_data, write_frame, i2c_master_send, hl,
        if_true, if_false, Bool.false_eq_true, frame_bytes_bare]
    · simp only [ttsp_i2c_write_block_data, write_frame, i2c_master_send, hl,
        if_false, Bool.false_eq_true, h1, frame_bytes_short]

/-- Staging buffer after write-block at an offset at or beyond the frame
length: the byte it held before. -/
theorem write_block_wr_buf_beyond (CY_LDR1_I2C_ADDR CY_LDR3_I2C_ADDR : Int)
    (bus : BusReply) (ts : cyttsp_i2c) (subaddr length : Nat) (values : Mem)
    (i2c_addr : Int) (use_long_subaddr : Bool) (i : Nat)
    (hi : length + (if use_long_subaddr then 2
          else if i2c_addr = CY_LDR1_I2C_ADDR ∨ i2c_addr = CY_LDR3_I2C_ADDR then 0
          else 1) ≤ i) :
    (ttsp_i2c_write_block_data CY_LDR1_I2C_ADDR CY_LDR3_I2C_ADDR bus ts
        subaddr length values i2c_addr use_long_subaddr).ts.wr_buf i
      = ts.wr_buf i := by
  cases use_long_subaddr with
  | true =>
    simp only [if_true] at hi
    simp only [ttsp_i2c_write_block_data, write_frame, if_true,
      applyStores_cons, applyStores_memcpy, storeByte]
    have h0 : ¬ (2 ≤ i ∧ i < 2 + length) := by omega
    have h1 : ¬ i = 1 := by omega
    have h2 : ¬ i = 0 := by omega
    simp only [h0, h1, h2, if_false]
  | false =>
    by_cases hl : i2c_addr = CY_LDR1_I2C_ADDR ∨ i2c_addr = CY_LDR3_I2C_ADDR
    · simp only [hl, if_true, if_false, Bool.false_eq_true] at hi
      simp only [ttsp_i2c_write_block_data, write_frame, hl, if_true, if_false,
        Bool.false_eq_true, applyStores_memcpy]
      have h0 : ¬ (0 ≤ i ∧ i < 0 + length) := by omega
      simp only [h0, if_false]
    · simp only [hl, if_false, Bool.false_eq_true] at hi
      simp only [ttsp_i2c_write_block_data, write_frame, hl, if_false,
        Bool.false_eq_true, applyStores_cons, applyStores_memcpy, storeByte]
      have h0 : ¬ (1 ≤ i ∧ i < 1 + length) := by omega
      have h2 : ¬ i = 0 := by omega
      simp only [h0, h2, if_false]

/-- C16. No stale staging data reaches the bus: two runs of write-block with
the same sub-address, length (at most 126), payload, device address and flag,
started from arbitrary staging buffers (and bus handles), hand the same bytes
and the same length to the bus send; and every staging-buffer byte at an
offset at or beyond the transmit length keeps its prior value. -/
theorem write_block_no_stale_data (CY_LDR1_I2C_ADDR CY_LDR3_I2C_ADDR : Int)
    (bus1 bus2 : BusReply) (ts1 ts2 : cyttsp_i2c) (subaddr length : Nat)
    (values : Mem) (i2c_addr : Int) (use_long_subaddr : Bool)
    (hlen : length ≤ 126) :
    (ttsp_i2c_write_block_data CY_LDR1_I2C_ADDR CY_LDR3_I2C_ADDR bus1 ts1
        subaddr length values i2c_addr use_long_subaddr).trace
      = (ttsp_i2c_write_block_data CY_LDR1_I2C_ADDR CY_LDR3_I2C_ADDR bus2 ts2
        subaddr length values i2c_addr use_long_subaddr).trace
    ∧ sent_counts (ttsp_i2c_write_block_data CY_LDR1_I2C_ADDR CY_LDR3_I2C_ADDR
          bus1 ts1 subaddr length values i2c_addr use_long_subaddr).trace
      = [length + (if use_long_subaddr then 2
          else if i2c_addr = CY_LDR1_I2C_ADDR ∨ i2c_addr = CY_LDR3_I2C_ADDR then 0
          else 1)]
    ∧ ∀ i, length + (if use_long_subaddr then 2
          else if i2c_addr = CY_LDR1_I2C_ADDR ∨ i2c_addr = CY_LDR3_I2C_ADDR then 0
          else 1) ≤ i →
        (ttsp_i2c_write_block_data CY_LDR1_I2C_ADDR CY_LDR3_I2C_ADDR bus1 ts1
          subaddr length values i2c_addr use_long_subaddr).ts.wr_buf i
        = ts1.wr_buf i := by
  refine ⟨?_, ?_, ?_⟩
  · rw [write_block_trace_framed _ _ bus1 ts1 _ _ _ _ _ (by omega),
      write_block_trace_framed _ _ bus2 ts2 _ _ _ _ _ (by omega)]
  · rw [write_block_trace_framed _ _ bus1 ts1 _ _ _ _ _ (by omega)]
    cases use_long_subaddr with
    | true => rfl
    | false =>
      by_cases hl : i2c_addr = CY_LDR1_I2C_ADDR ∨ i2c_addr = CY_LDR3_I2C_ADDR
      · simp only [hl, if_true, if_false, Bool.false_eq_true, sent_counts,
          Nat.add_zero]
      · simp only [hl, if_false, Bool.false_eq_true, sent_counts]
  · intro i hi
    exact write_block_wr_buf_beyond _ _ _ _ _ _ _ _ _ i hi

/-- Witness for C16: the same four-byte write to device 0x24 from a zeroed
and from a 0xFF-filled staging buffer gives the same send, and offset 5 of
the 0xFF-filled buffer still holds 0xFF. -/
theorem write_block_no_stale_data_witness :
    (ttsp_i2c_write_block_data 0x69 0x6A (BusReply.mk 5 0 [])
        (cyttsp_i2c.mk (i2c_client.mk 0) (fun _ => 0xFF)) 0x10 4
        (memOfList [0xA1, 0xB2, 0xC3, 0xD4]) 0x24 false).trace
      = (ttsp_i2c_write_block_data 0x69 0x6A (BusReply.mk 5 0 [])
        (cyttsp_i2c.mk (i2c_client.mk 0x24) (fun _ => 0)) 0x10 4
        (memOfList [0xA1, 0xB2, 0xC3, 0xD4]) 0x24 false).trace
    ∧ (ttsp_i2c_write_block_data 0x69 0x6A (BusReply.mk 5 0 [])
        (cyttsp_i2c.mk (i2c_client.mk 0) (fun _ => 0xFF)) 0x10 4
        (memOfList [0xA1, 0xB2, 0xC3, 0xD4]) 0x24 false).ts.wr_buf 5
      = 0xFF :=
  ⟨(write_block_no_stale_data 0x69 0x6A (BusReply.mk 5 0 []) (BusReply.mk 5 0 [])
      (cyttsp_i2c.mk (i2c_client.mk 0) (fun _ => 0xFF))
      (cyttsp_i2c.mk (i2c_client.mk 0x24) (fun _ => 0)) 0x10 4
      (memOfList [0xA1, 0xB2, 0xC3, 0xD4]) 0x24 false (by decide)).1,
   (write_block_no_stale_data 0x69 0x6A (BusReply.mk 5 0 []) (BusReply.mk 5 0 [])
      (cyttsp_i2c.mk (i2c_client.mk 0) (fun _ => 0xFF))
      (cyttsp_i2c.mk (i2c_client.mk 0x24) (fun _ => 0)) 0x10 4
      (memOfList [0xA1, 0xB2, 0xC3, 0xD4]) 0x24 false (by decide)).2.2 5
      (by decide)⟩

end CyttspI2c
